import Mathlib

set_option maxHeartbeats 1000000

/-- Error taxonomy of the dicom io module, mirroring the spec's error classes
(section 7) and the concrete Python exception sites in `dicom_io.py`. -/
inductive DicomIOError where
  | configurationError
  | invalidGeometryError
  | conversionError
  | contourError
  | typeError
  | fileNotFoundError
  deriving DecidableEq

/-- A 3-axis voxel array: `ndim` records the rank reported by numpy, the three
`s` fields give the extent along the three meaningful axes, and `data` reads
the voxel value at a coordinate triple. -/
structure NDArr where
  ndim : Nat
  s0 : Nat
  s1 : Nat
  s2 : Nat
  data : Nat → Nat → Nat → Int

/-- Shape of `x` along axis `k` (axes 0, 1, 2). -/
def NDArr.shapeAt (x : NDArr) (k : Nat) : Nat :=
  if k = 0 then x.s0 else if k = 1 then x.s1 else x.s2

/-- Extensional equality of arrays: equal rank, equal shape, and equal voxel
values at every in-bounds coordinate (numpy array equality). -/
def ArrEq (x y : NDArr) : Prop :=
  x.ndim = y.ndim ∧ x.s0 = y.s0 ∧ x.s1 = y.s1 ∧ x.s2 = y.s2 ∧
    ∀ i0 i1 i2, i0 < x.s0 → i1 < x.s1 → i2 < x.s2 → x.data i0 i1 i2 = y.data i0 i1 i2

/-- A nibabel orientation array: row `a` gives the output axis that input axis
`a` corresponds to, and `true` when the direction is kept (+1), `false` when it
is reversed (-1). -/
abbrev Ornt := Nat → Nat × Bool

/-- A valid 3D orientation: rows 0, 1, 2 name pairwise distinct output axes
below 3. -/
abbrev OrntValid (o : Ornt) : Prop :=
  (o 0).1 < 3 ∧ (o 1).1 < 3 ∧ (o 2).1 < 3 ∧
    (o 0).1 ≠ (o 1).1 ∧ (o 0).1 ≠ (o 2).1 ∧ (o 1).1 ≠ (o 2).1

/-- Index of the row of `o` whose output axis is `k` (the argsort of the output
axes, as used by `apply_orientation` to build its transpose). -/
def invOut (o : Ornt) (k : Nat) : Nat :=
  if (o 0).1 = k then 0 else if (o 1).1 = k then 1 else 2

/-- Coordinate selector: component `k` of a coordinate triple. -/
def sel3 (i0 i1 i2 : Nat) (k : Nat) : Nat :=
  if k = 0 then i0 else if k = 1 then i1 else i2

/-- Source coordinate along input axis `a` read by `apply_orientation` at output
coordinate `(i0, i1, i2)`: input axis `a` serves output axis `(o a).1`, with the
index reversed when the flip bit of row `a` is set. -/
def coordMap (o : Ornt) (x : NDArr) (i0 i1 i2 : Nat) (a : Nat) : Nat :=
  cond (o a).2 (sel3 i0 i1 i2 (o a).1) (x.shapeAt a - 1 - sel3 i0 i1 i2 (o a).1)

/-- nibabel `apply_orientation`: flip every axis whose orientation row has a
negative direction, then transpose by the argsort of the output axes. -/
def applyOrnt (o : Ornt) (x : NDArr) : NDArr where
  ndim := x.ndim
  s0 := x.shapeAt (invOut o 0)
  s1 := x.shapeAt (invOut o 1)
  s2 := x.shapeAt (invOut o 2)
  data := fun i0 i1 i2 =>
    x.data (coordMap o x i0 i1 i2 0) (coordMap o x i0 i1 i2 1) (coordMap o x i0 i1 i2 2)

/-- nibabel `ornt_transform`: row `a` of the transform sends input axis `a` to
the row of `e` holding the same output axis as row `a` of `s`, flipping exactly
when the two directions disagree. -/
def orntTransform (s e : Ornt) : Ornt :=
  fun a => (invOut e (s a).1, (s a).2 == (e (invOut e (s a).1)).2)

/-- Anatomical axis codes accepted by nibabel `axcodes2ornt`. -/
inductive AxCode where
  | L | R | P | A | I | S
  deriving DecidableEq

/-- Row of `axcodes2ornt` for a single code: its anatomical label axis together
with its direction. -/
def axcodeRow : AxCode → Nat × Bool
  | .L => (0, false)
  | .R => (0, true)
  | .P => (1, false)
  | .A => (1, true)
  | .I => (2, false)
  | .S => (2, true)

/-- A triple of axis codes, e.g. (R, A, S). -/
abbrev AxCodes := AxCode × AxCode × AxCode

/-- nibabel `axcodes2ornt` on a triple of codes. -/
def axcodes2ornt (c : AxCodes) : Ornt :=
  fun a => if a = 0 then axcodeRow c.1 else if a = 1 then axcodeRow c.2.1 else axcodeRow c.2.2

/-- A code triple describes a real orientation exactly when its three anatomical
label axes are pairwise distinct. -/
abbrev CodesValid (c : AxCodes) : Prop :=
  (axcodeRow c.1).1 ≠ (axcodeRow c.2.1).1 ∧ (axcodeRow c.1).1 ≠ (axcodeRow c.2.2).1 ∧
    (axcodeRow c.2.1).1 ≠ (axcodeRow c.2.2).1

/-- Re-aligning an array from the orientation described by codes `a` to the one
described by codes `b` (nibabel `apply_orientation` of `ornt_transform`). -/
def align (x : NDArr) (a b : AxCodes) : NDArr :=
  applyOrnt (orntTransform (axcodes2ornt a) (axcodes2ornt b)) x

/-- The LPS (DICOM patient convention) orientation rows. -/
def lpsOrnt : Ornt := axcodes2ornt (.L, .P, .S)

/-- The RAS orientation rows. -/
def rasOrnt : Ornt := axcodes2ornt (.R, .A, .S)

/-- Pure core of `_reorient_to_lps`: transform from the image's current
orientation (derived from its affine) to LPS. -/
def alignToLPS (currentOrnt : Ornt) (x : NDArr) : NDArr :=
  applyOrnt (orntTransform currentOrnt lpsOrnt) x

/-- `_reorient_to_lps`: reject data that is not exactly 3-dimensional with the
geometry error, else return the LPS-aligned array. -/
def reorientToLPS (currentOrnt : Ornt) (x : NDArr) : Except DicomIOError NDArr :=
  if x.ndim = 3 then .ok (alignToLPS currentOrnt x) else .error .invalidGeometryError

/-- `np.transpose(v, (2, 1, 0))`: reorder axes from (Columns, Rows, Slices) to
(Slices, Rows, Columns). -/
def transpose210 (x : NDArr) : NDArr where
  ndim := x.ndim
  s0 := x.s2
  s1 := x.s1
  s2 := x.s0
  data := fun i0 i1 i2 => x.data i2 i1 i0

/-- `np.any(vol == v)`: some in-bounds voxel of `x` holds value `v`. -/
def anyEq (x : NDArr) (v : Int) : Bool :=
  (List.range x.s0).any fun i0 =>
    (List.range x.s1).any fun i1 =>
      (List.range x.s2).any fun i2 => x.data i0 i1 i2 == v

/-- The (reoriented, axis-reordered) volume the export loop scans for classes. -/
def slicesFirstVol (currentOrnt : Ornt) (x : NDArr) : NDArr :=
  transpose210 (alignToLPS currentOrnt x)

/-- The per-class export loop of `save_mask_as_rtstruct`: skip classes with an
empty mask, add one ROI per non-empty class in map order, and abort on the
first contour-construction failure (`roiOk` abstracts whether
`rt_utils.add_roi` succeeds for a given class index). -/
def addRois (roiOk : Int → Bool) (vol : NDArr) :
    List (Int × String) → Except DicomIOError (List (String × Int))
  | [] => .ok []
  | (idx, name) :: rest =>
    if anyEq vol idx then
      if roiOk idx then
        match addRois roiOk vol rest with
        | .ok r => .ok ((name, idx) :: r)
        | .error e => .error e
      else .error .contourError
    else addRois roiOk vol rest

/-- Result of an export call: the returned value or error, plus every file the
call wrote. -/
structure ExportOutcome where
  result : Except DicomIOError (List (String × Int))
  written : List String

/-- `save_mask_as_rtstruct`: check the input type, reorient to LPS, reorder the
axes to slices-first, run the per-class loop, and only then serialize the
accumulated document to `outputPath`, exactly once. -/
def save_mask_as_rtstruct (roiOk : Int → Bool) (isNifti : Bool) (currentOrnt : Ornt)
    (img : NDArr) (classes : List (Int × String)) (outputPath : String) : ExportOutcome :=
  if isNifti = false then { result := .error .typeError, written := [] }
  else
    match reorientToLPS currentOrnt img with
    | .error e => { result := .error e, written := [] }
    | .ok lps =>
      match addRois roiOk (transpose210 lps) classes with
      | .error e => { result := .error e, written := [] }
      | .ok rois => { result := .ok rois, written := [outputPath] }

/-- A filesystem write performed by the series-ingest conversion. -/
inductive FsWrite where
  | extractTo (dir : String)
  | writeNifti (path : String)
  deriving DecidableEq

/-- Result of `dcm_to_nifti`: the returned value or error, plus every
filesystem write the call performed. -/
structure ConvertOutcome where
  result : Except DicomIOError Unit
  writes : List FsWrite

/-- `dcm_to_nifti`: when the input is a zip archive, demand a scratch directory
before doing anything, extract into `tmpDir/extracted_dcm`, then convert the
slice directory to one output file (`isZipfile` abstracts
`zipfile.is_zipfile`, a read-only probe of the input path). -/
def dcm_to_nifti (isZipfile : String → Bool) (inputPath : String) (outputPath : String)
    (tmpDir : Option String) : ConvertOutcome :=
  if isZipfile inputPath then
    match tmpDir with
    | none => { result := .error .configurationError, writes := [] }
    | some t =>
      { result := .ok (), writes := [.extractTo (t ++ "/extracted_dcm"), .writeNifti outputPath] }
  else { result := .ok (), writes := [.writeNifti outputPath] }

/-- The three characters searched for inside candidate filenames. -/
def roiPat : List Char := ['R', 'O', 'I']

/-- Python `"ROI" in name`: substring search over the characters of a name. -/
def containsROI : List Char → Bool
  | [] => false
  | c :: rest => roiPat.isPrefixOf (c :: rest) || containsROI rest

/-- Outcome of the legacy multi-output disambiguation: the candidate files kept,
the files deleted, and the filenames printed by the second warning. -/
structure DisambOutcome where
  remaining : List (List Char)
  removed : List (List Char)
  warned : List (List Char)
  deriving DecidableEq

/-- Multi-output disambiguation of `dcm_to_nifti_LEGACY`: when more than one
candidate exists, first delete every candidate whose name contains `ROI`; if
more than one candidate still remains, keep only the first by listing order,
delete the rest, and print a warning naming the remaining candidates. -/
def disambiguate (files : List (List Char)) : DisambOutcome :=
  let files1 := if 1 < files.length then files.filter (fun f => !containsROI f) else files
  let removedROI := if 1 < files.length then files.filter (fun f => containsROI f) else []
  if 1 < files1.length then
    { remaining := files1.take 1, removed := removedROI ++ files1.drop 1, warned := files1 }
  else
    { remaining := files1, removed := removedROI, warned := [] }

/-- The sidecar path deleted by the legacy converter: the output path with its
last seven characters (the `.nii.gz` suffix) replaced by `.json`. -/
def sidecarPath (p : List Char) : List Char :=
  p.take (p.length - 7) ++ ['.', 'j', 's', 'o', 'n']

/-- Outcome of the legacy converter after the external binary ran: the
candidate files kept and every file the call deleted. -/
structure LegacyOutcome where
  remaining : List (List Char)
  deleted : List (List Char)
  deriving DecidableEq

/-- Post-conversion logic of `dcm_to_nifti_LEGACY`: fail when the expected
output file is missing, disambiguate the candidate volume files, then
unconditionally delete the `.json` sidecar — raising a file-not-found error
when that sidecar does not exist (`fsExists` abstracts the filesystem state
left behind by the external binary). -/
def dcm_to_nifti_LEGACY_post (fsExists : List Char → Bool) (outputPath : List Char)
    (niiFiles : List (List Char)) : Except DicomIOError LegacyOutcome :=
  if fsExists outputPath = false then .error .conversionError
  else
    let d := disambiguate niiFiles
    if fsExists (sidecarPath outputPath) then
      .ok { remaining := d.remaining, deleted := d.removed ++ [sidecarPath outputPath] }
    else .error .fileNotFoundError

/-- The in-bounds coordinate box of an array. -/
def box (x : NDArr) : Finset (Nat × Nat × Nat) :=
  Finset.range x.s0 ×ˢ Finset.range x.s1 ×ˢ Finset.range x.s2

/-- The multiset of voxel values of an array, one entry per in-bounds
coordinate. -/
def vals (x : NDArr) : Multiset Int :=
  (box x).val.map fun p => x.data p.1 p.2.1 p.2.2

/-- The coordinate transformation underlying `applyOrnt`, as a map on index
triples: the source coordinate read for each output coordinate. -/
def idxMap (o : Ornt) (x : NDArr) (p : Nat × Nat × Nat) : Nat × Nat × Nat :=
  (coordMap o x p.1 p.2.1 p.2.2 0, coordMap o x p.1 p.2.1 p.2.2 1,
    coordMap o x p.1 p.2.1 p.2.2 2)

/-- Concrete 1×1×1 demo volume holding a single background voxel. -/
def demoVol : NDArr where
  ndim := 3
  s0 := 1
  s1 := 1
  s2 := 1
  data := fun _ _ _ => 0

/-- Concrete 1×1×1 demo volume whose single voxel holds class 1. -/
def demoVolOnes : NDArr where
  ndim := 3
  s0 := 1
  s1 := 1
  s2 := 1
  data := fun _ _ _ => 1

/-- Concrete 2×3×4 demo volume with pairwise distinct voxel values. -/
def demoVol234 : NDArr where
  ndim := 3
  s0 := 2
  s1 := 3
  s2 := 4
  data := fun i0 i1 i2 => Int.ofNat (12 * i0 + 4 * i1 + i2)

/-- Concrete rank-2 demo input used to exercise the geometry check. -/
def demoVol2D : NDArr where
  ndim := 2
  s0 := 1
  s1 := 1
  s2 := 1
  data := fun _ _ _ => 0

/-- Demo candidate filenames for the legacy disambiguation scenario: three
candidates of which exactly the middle one contains `ROI`. -/
def demoFiles : List (List Char) := [['a'], ['R', 'O', 'I'], ['b']]

/-- Demo legacy output path `a.nii.gz`. -/
def demoOutPath : List Char := ['a', '.', 'n', 'i', 'i', '.', 'g', 'z']

/-- C2: for a zip-archive input with no scratch directory, the series-ingest
conversion entry point fails with the configuration error before performing
any filesystem write. -/
theorem dcm_to_nifti_zip_no_tmpdir (isZipfile : String → Bool) (inputPath outputPath : String)
    (hzip : isZipfile inputPath = true) :
    dcm_to_nifti isZipfile inputPath outputPath none =
      { result := .error .configurationError, writes := [] } := by
  simp [dcm_to_nifti, hzip]

/-- Witness for the zip-without-scratch-directory theorem at a concrete input. -/
theorem dcm_to_nifti_zip_no_tmpdir_witness :
    dcm_to_nifti (fun _ => true) "series.zip" "out.nii.gz" none =
      { result := .error .configurationError, writes := [] } :=
  dcm_to_nifti_zip_no_tmpdir (fun _ => true) "series.zip" "out.nii.gz" rfl

/-- C6: an input array whose rank is not 3 makes the orientation transformer
fail with the geometry error, and the RT-Struct export that calls it fails the
same way without writing any file. -/
theorem reorient_non3d_errors (o : Ornt) (x : NDArr) (h : x.ndim ≠ 3) :
    reorientToLPS o x = .error .invalidGeometryError ∧
      ∀ roiOk classes outputPath,
        save_mask_as_rtstruct roiOk true o x classes outputPath =
          { result := .error .invalidGeometryError, written := [] } := by
  constructor
  · simp [reorientToLPS, h]
  · intro roiOk classes outputPath
    simp [save_mask_as_rtstruct, reorientToLPS, h]

/-- Witness for the rank check at a concrete rank-2 input. -/
theorem reorient_non3d_errors_witness :
    demoVol2D.ndim ≠ 3 ∧
      save_mask_as_rtstruct (fun _ => true) true rasOrnt demoVol2D [(1, "organA")] "out.dcm" =
        { result := .error .invalidGeometryError, written := [] } :=
  ⟨by decide, (reorient_non3d_errors rasOrnt demoVol2D (by decide)).2
    (fun _ => true) [(1, "organA")] "out.dcm"⟩

/-- C9: after a successful conversion the legacy converter unconditionally
deletes the `.json` sidecar of the output path; when that sidecar is missing
the call fails with a file-not-found error even though the conversion itself
succeeded, and when it exists it is deleted. -/
theorem legacy_sidecar_removal (fsExists : List Char → Bool) (outputPath : List Char)
    (niiFiles : List (List Char)) (hout : fsExists outputPath = true) :
    (fsExists (sidecarPath outputPath) = false →
        dcm_to_nifti_LEGACY_post fsExists outputPath niiFiles = .error .fileNotFoundError) ∧
      (fsExists (sidecarPath outputPath) = true →
        ∃ oc, dcm_to_nifti_LEGACY_post fsExists outputPath niiFiles = .ok oc ∧
          sidecarPath outputPath ∈ oc.deleted) := by
  constructor
  · intro hjson
    simp [dcm_to_nifti_LEGACY_post, hout, hjson]
  · intro hjson
    refine ⟨{ remaining := (disambiguate niiFiles).remaining,
              deleted := (disambiguate niiFiles).removed ++ [sidecarPath outputPath] }, ?_, ?_⟩
    · simp [dcm_to_nifti_LEGACY_post, hout, hjson]
    · simp

/-- Witness for the sidecar-removal theorem at a concrete filesystem state
where only the output file exists. -/
theorem legacy_sidecar_removal_witness :
    (fun p => p == demoOutPath) demoOutPath = true ∧
      dcm_to_nifti_LEGACY_post (fun p => p == demoOutPath) demoOutPath demoFiles =
        .error .fileNotFoundError :=
  ⟨by decide,
    (legacy_sidecar_removal (fun p => p == demoOutPath) demoOutPath demoFiles (by decide)).1
      (by decide)⟩

/-- C5: a 3D volume whose affine implies axis codes (R, A, S), reoriented to
(L, P, S), has its first two axes reversed and its third axis unchanged; in
particular voxel (0, 0, 0) of the input appears at voxel
(shape0 - 1, shape1 - 1, 0) of the output. -/
theorem reorient_ras_to_lps_flips (x : NDArr) (h3 : x.ndim = 3) :
    ∃ y, reorientToLPS rasOrnt x = .ok y ∧
      y.s0 = x.s0 ∧ y.s1 = x.s1 ∧ y.s2 = x.s2 ∧
      (∀ i0 i1 i2, y.data i0 i1 i2 = x.data (x.s0 - 1 - i0) (x.s1 - 1 - i1) i2) ∧
      (0 < x.s0 → 0 < x.s1 → 0 < x.s2 →
        y.data (x.s0 - 1) (x.s1 - 1) 0 = x.data 0 0 0) := by
  refine ⟨alignToLPS rasOrnt x, by simp [reorientToLPS, h3], rfl, rfl, rfl, ?_, ?_⟩
  · intro i0 i1 i2
    rfl
  · intro h0 h1 h2
    show x.data (x.s0 - 1 - (x.s0 - 1)) (x.s1 - 1 - (x.s1 - 1)) 0 = x.data 0 0 0
    rw [Nat.sub_self, Nat.sub_self]

/-- Witness for the RAS-to-LPS flip theorem at a concrete 2×3×4 volume. -/
theorem reorient_ras_to_lps_flips_witness :
    demoVol234.ndim = 3 ∧
      ∃ y, reorientToLPS rasOrnt demoVol234 = .ok y ∧
        y.s0 = demoVol234.s0 ∧ y.s1 = demoVol234.s1 ∧ y.s2 = demoVol234.s2 ∧
        (∀ i0 i1 i2, y.data i0 i1 i2 =
          demoVol234.data (demoVol234.s0 - 1 - i0) (demoVol234.s1 - 1 - i1) i2) ∧
        (0 < demoVol234.s0 → 0 < demoVol234.s1 → 0 < demoVol234.s2 →
          y.data (demoVol234.s0 - 1) (demoVol234.s1 - 1) 0 = demoVol234.data 0 0 0) :=
  ⟨rfl, reorient_ras_to_lps_flips demoVol234 rfl⟩

/-- Helper: every ROI entry produced by the export loop names a class whose
mask is non-empty in the scanned volume. -/
theorem addRois_mem_anyEq (roiOk : Int → Bool) (vol : NDArr) (name : String) (k : Int) :
    ∀ (classes : List (Int × String)) (rois : List (String × Int)),
      addRois roiOk vol classes = .ok rois → (name, k) ∈ rois → anyEq vol k = true := by
  intro classes
  induction classes with
  | nil =>
    intro rois h hm
    simp only [addRois] at h
    cases h
    simp at hm
  | cons hd tl ih =>
    intro rois h hm
    obtain ⟨idx, nm⟩ := hd
    simp only [addRois] at h
    by_cases ha : anyEq vol idx = true
    · rw [if_pos ha] at h
      by_cases hr : roiOk idx = true
      · rw [if_pos hr] at h
        cases htl : addRois roiOk vol tl with
        | ok r =>
          rw [htl] at h
          cases h
          rcases List.mem_cons.mp hm with he | hr2
          · injection he with h1 h2
            subst h2
            exact ha
          · exact ih r htl hr2
        | error e => rw [htl] at h; cases h
      · rw [if_neg hr] at h; cases h
    · rw [if_neg ha] at h
      exact ih rois h hm

/-- Helper: a successful export only returns ROI entries for classes whose
mask is non-empty in the reoriented, axis-reordered volume. -/
theorem export_mem_anyEq (roiOk : Int → Bool) (currentOrnt : Ornt) (img : NDArr)
    (classes : List (Int × String)) (outputPath : String) (rois : List (String × Int))
    (name : String) (k : Int)
    (hok : (save_mask_as_rtstruct roiOk true currentOrnt img classes outputPath).result =
      .ok rois)
    (hm : (name, k) ∈ rois) : anyEq (slicesFirstVol currentOrnt img) k = true := by
  simp only [save_mask_as_rtstruct] at hok
  rw [if_neg (by simp)] at hok
  split at hok
  next e hre => cases hok
  next lps hre =>
    split at hok
    next e hadd => cases hok
    next r hadd =>
      cases hok
      have hlps : lps = alignToLPS currentOrnt img := by
        simp only [reorientToLPS] at hre
        by_cases h3 : img.ndim = 3
        · rw [if_pos h3] at hre; cases hre; rfl
        · rw [if_neg h3] at hre; cases hre
      rw [hlps] at hadd
      exact addRois_mem_anyEq roiOk (slicesFirstVol currentOrnt img) name k classes rois hadd hm

/-- C3: a class whose mask is empty in the reoriented, axis-reordered volume
never receives an ROI entry in the export result, for every class index. -/
theorem export_skips_empty_classes (roiOk : Int → Bool) (currentOrnt : Ornt) (img : NDArr)
    (classes : List (Int × String)) (outputPath : String) (rois : List (String × Int))
    (k : Int) (name : String)
    (hok : (save_mask_as_rtstruct roiOk true currentOrnt img classes outputPath).result =
      .ok rois)
    (hempty : anyEq (slicesFirstVol currentOrnt img) k = false) :
    (name, k) ∉ rois := by
  intro hm
  have := export_mem_anyEq roiOk currentOrnt img classes outputPath rois name k hok hm
  rw [hempty] at this
  cases this

/-- Witness for empty-class skipping: class 2 has no voxels in the demo volume
and indeed gets no ROI entry. -/
theorem export_skips_empty_classes_witness :
    (save_mask_as_rtstruct (fun _ => true) true rasOrnt demoVolOnes
        [(1, "organA"), (2, "organB")] "out.dcm").result = .ok [("organA", 1)] ∧
      anyEq (slicesFirstVol rasOrnt demoVolOnes) 2 = false ∧
      ("organB", (2 : Int)) ∉ [("organA", (1 : Int))] :=
  ⟨rfl, by decide,
    export_skips_empty_classes (fun _ => true) rasOrnt demoVolOnes
      [(1, "organA"), (2, "organB")] "out.dcm" [("organA", 1)] 2 "organB"
      rfl (by decide)⟩

/-- C1 counterexample: a class map containing index 0, exported against a
volume holding a background voxel, produces an ROI entry named for index 0 —
the exporter does not special-case the background index. -/
theorem background_roi_counterexample :
    (save_mask_as_rtstruct (fun _ => true) true rasOrnt demoVol [(0, "background")]
        "out.dcm").result = .ok [("background", 0)] := by
  rfl

/-- C1 amended: index 0 receives no ROI entry provided the reoriented,
axis-reordered volume holds no voxel equal to 0; background exclusion holds
only through the generic empty-mask skipping. -/
theorem background_excluded_when_absent (roiOk : Int → Bool) (currentOrnt : Ornt)
    (img : NDArr) (classes : List (Int × String)) (outputPath : String)
    (rois : List (String × Int)) (name : String)
    (_hbg : ∃ n, ((0 : Int), n) ∈ classes)
    (hok : (save_mask_as_rtstruct roiOk true currentOrnt img classes outputPath).result =
      .ok rois)
    (hempty : anyEq (slicesFirstVol currentOrnt img) 0 = false) :
    (name, (0 : Int)) ∉ rois := by
  intro hm
  have := export_mem_anyEq roiOk currentOrnt img classes outputPath rois name 0 hok hm
  rw [hempty] at this
  cases this

/-- Witness for the amended background-exclusion theorem at a concrete volume
with no background voxels. -/
theorem background_excluded_when_absent_witness :
    anyEq (slicesFirstVol rasOrnt demoVolOnes) 0 = false ∧
      ("background", (0 : Int)) ∉ [("organA", (1 : Int))] :=
  ⟨by decide,
    background_excluded_when_absent (fun _ => true) rasOrnt demoVolOnes
      [(0, "background"), (1, "organA")] "out.dcm" [("organA", 1)] "background"
      ⟨"background", by simp⟩ rfl (by decide)⟩

/-- Helper: a contour-construction failure for any class of the map that has a
non-empty mask makes the whole export loop return the contour error. -/
theorem addRois_fail_of_mem (roiOk : Int → Bool) (vol : NDArr) :
    ∀ (classes : List (Int × String)) (k : Int) (name : String),
      (k, name) ∈ classes → anyEq vol k = true → roiOk k = false →
      addRois roiOk vol classes = .error .contourError := by
  intro classes
  induction classes with
  | nil => intro k name hm _ _; simp at hm
  | cons hd tl ih =>
    intro k name hm ha hr
    obtain ⟨idx, nm⟩ := hd
    rcases List.mem_cons.mp hm with he | htl
    · injection he with h1 h2
      subst h1
      simp only [addRois]
      rw [if_pos ha, if_neg (by simp [hr])]
    · by_cases haidx : anyEq vol idx = true
      · by_cases hridx : roiOk idx = true
        · simp only [addRois]
          rw [if_pos haidx, if_pos hridx, ih k name htl ha hr]
        · simp only [addRois]
          rw [if_pos haidx, if_neg (by simp [hridx])]
      · simp only [addRois]
        rw [if_neg haidx]
        exact ih k name htl ha hr

/-- Helper: the export writes its output file exactly when its result is a
success, and writes nothing otherwise. -/
theorem save_written_eq (roiOk : Int → Bool) (isNifti : Bool) (currentOrnt : Ornt)
    (img : NDArr) (classes : List (Int × String)) (outputPath : String) :
    (save_mask_as_rtstruct roiOk isNifti currentOrnt img classes outputPath).written =
      (match (save_mask_as_rtstruct roiOk isNifti currentOrnt img classes outputPath).result with
        | .ok _ => [outputPath]
        | .error _ => []) := by
  simp only [save_mask_as_rtstruct]
  split
  · rfl
  · split
    · rfl
    · split <;> rfl

/-- C8: the export serializes the document exactly once after all classes are
processed — the output file is written exactly when the whole per-class loop
succeeds, a contour-construction failure propagates to the caller, and a
failed export writes no file at all. -/
theorem export_serializes_once_or_aborts (roiOk : Int → Bool) (isNifti : Bool)
    (currentOrnt : Ornt) (img : NDArr) (classes : List (Int × String)) (outputPath : String) :
    (∀ rois,
        (save_mask_as_rtstruct roiOk isNifti currentOrnt img classes outputPath).result =
          .ok rois →
        (save_mask_as_rtstruct roiOk isNifti currentOrnt img classes outputPath).written =
          [outputPath]) ∧
      (∀ e,
        (save_mask_as_rtstruct roiOk isNifti currentOrnt img classes outputPath).result =
          .error e →
        (save_mask_as_rtstruct roiOk isNifti currentOrnt img classes outputPath).written =
          []) ∧
      (∀ k name, isNifti = true → img.ndim = 3 → (k, name) ∈ classes →
        anyEq (slicesFirstVol currentOrnt img) k = true → roiOk k = false →
        (save_mask_as_rtstruct roiOk isNifti currentOrnt img classes outputPath).result =
            .error .contourError ∧
          (save_mask_as_rtstruct roiOk isNifti currentOrnt img classes outputPath).written =
            []) := by
  refine ⟨?_, ?_, ?_⟩
  · intro rois hok
    rw [save_written_eq, hok]
  · intro e herr
    rw [save_written_eq, herr]
  · intro k name hn h3 hm ha hr
    subst hn
    have hfail := addRois_fail_of_mem roiOk (slicesFirstVol currentOrnt img) classes k name hm ha hr
    simp only [slicesFirstVol] at hfail
    have hres : save_mask_as_rtstruct roiOk true currentOrnt img classes outputPath =
        { result := .error .contourError, written := [] } := by
      simp only [save_mask_as_rtstruct, reorientToLPS, if_pos h3]
      rw [if_neg (by simp), hfail]
    rw [hres]
    exact ⟨rfl, rfl⟩

/-- Witness for the serialize-once theorem: a successful export writes exactly
the output file, and an export whose contour construction fails for class 0
aborts with the contour error and writes nothing. -/
theorem export_serializes_once_or_aborts_witness :
    (save_mask_as_rtstruct (fun _ => true) true rasOrnt demoVol [(0, "background")]
        "out.dcm").written = ["out.dcm"] ∧
      ((save_mask_as_rtstruct (fun _ => false) true rasOrnt demoVol [(0, "background")]
          "out.dcm").result = .error .contourError ∧
        (save_mask_as_rtstruct (fun _ => false) true rasOrnt demoVol [(0, "background")]
          "out.dcm").written = []) :=
  ⟨(export_serializes_once_or_aborts (fun _ => true) true rasOrnt demoVol [(0, "background")]
      "out.dcm").1 [("background", 0)] rfl,
    (export_serializes_once_or_aborts (fun _ => false) true rasOrnt demoVol [(0, "background")]
      "out.dcm").2.2 0 "background" rfl rfl (by simp) rfl rfl⟩

/-- C7: with more than one candidate, every candidate whose name contains `ROI`
is discarded first; if more than one candidate then remains, only the first by
listing order is kept, the rest are discarded and named in the warning; with
three candidates of which exactly one contains `ROI`, exactly one file remains
and it is the first non-ROI candidate by listing order. -/
theorem legacy_disambiguation (files : List (List Char)) (h : 1 < files.length) :
    (∀ f, f ∈ files → containsROI f = true →
        f ∈ (disambiguate files).removed ∧ f ∉ (disambiguate files).remaining) ∧
      (1 < (files.filter fun f => !containsROI f).length →
        (disambiguate files).remaining = (files.filter fun f => !containsROI f).take 1 ∧
          (∀ f, f ∈ (files.filter fun f => !containsROI f).drop 1 →
            f ∈ (disambiguate files).removed ∧ f ∈ (disambiguate files).warned)) ∧
      (files.length = 3 → (files.filter containsROI).length = 1 →
        (disambiguate files).remaining.length = 1 ∧
          (disambiguate files).remaining = (files.filter fun f => !containsROI f).take 1) := by
  have hd : disambiguate files =
      (if 1 < (files.filter fun f => !containsROI f).length then
        { remaining := (files.filter fun f => !containsROI f).take 1,
          removed := (files.filter fun f => containsROI f) ++
            (files.filter fun f => !containsROI f).drop 1,
          warned := files.filter fun f => !containsROI f }
      else
        { remaining := files.filter fun f => !containsROI f,
          removed := files.filter fun f => containsROI f,
          warned := [] }) := by
    simp only [disambiguate, if_pos h]
  refine ⟨?_, ?_, ?_⟩
  · intro f hf hroi
    rw [hd]
    have hmem : f ∈ files.filter fun f => containsROI f := List.mem_filter.mpr ⟨hf, hroi⟩
    have hnot : ∀ l : List (List Char), l = files.filter (fun f => !containsROI f) → f ∉ l := by
      intro l hl hfl
      rw [hl] at hfl
      have := (List.mem_filter.mp hfl).2
      rw [hroi] at this
      cases this
    split
    · refine ⟨List.mem_append_left _ hmem, ?_⟩
      intro htake
      exact hnot _ rfl (List.Sublist.subset (List.take_sublist _ _) htake)
    · exact ⟨hmem, hnot _ rfl⟩
  · intro h1
    rw [hd, if_pos h1]
    refine ⟨rfl, ?_⟩
    intro f hf
    refine ⟨List.mem_append_right _ hf, ?_⟩
    exact List.Sublist.subset (List.drop_sublist _ _) hf
  · intro h3 hroi1
    have hsplit := List.length_eq_length_filter_add (l := files) containsROI
    have hlen2 : 1 < (files.filter fun f => !containsROI f).length := by
      have hfe : (files.filter fun f => !containsROI f) =
          files.filter (fun f => !containsROI f) := rfl
      omega
    have hlen2' : (files.filter fun f => !containsROI f).length = 2 := by omega
    rw [hd, if_pos hlen2]
    constructor
    · simp [List.length_take, hlen2']
    · rfl

/-- Witness for the disambiguation theorem at the concrete three-candidate
scenario. -/
theorem legacy_disambiguation_witness :
    1 < demoFiles.length ∧ (demoFiles.filter containsROI).length = 1 ∧
      ((disambiguate demoFiles).remaining.length = 1 ∧
        (disambiguate demoFiles).remaining =
          (demoFiles.filter fun f => !containsROI f).take 1) :=
  ⟨by decide, by decide,
    (legacy_disambiguation demoFiles (by decide)).2.2 (by decide) (by decide)⟩

/-- Helper: the output axis of any meaningful row of a valid orientation is
below 3. -/
theorem ornt_fst_lt (o : Ornt) (ho : OrntValid o) (a : Nat) (ha : a < 3) : (o a).1 < 3 := by
  obtain ⟨l0, l1, l2, _, _, _⟩ := ho
  interval_cases a <;> assumption

/-- Helper: `invOut` always lands below 3. -/
theorem invOut_lt (o : Ornt) (k : Nat) : invOut o k < 3 := by
  unfold invOut
  split_ifs <;> omega

/-- Helper: the selector of a tabulated function returns the function. -/
theorem sel3_eval (g : Nat → Nat) (a : Nat) (ha : a < 3) : sel3 (g 0) (g 1) (g 2) a = g a := by
  interval_cases a <;> rfl

/-- Helper: a selected in-bounds coordinate is below the shape of its axis. -/
theorem sel3_lt (x : NDArr) (i0 i1 i2 a : Nat) (h0 : i0 < x.s0) (h1 : i1 < x.s1)
    (h2 : i2 < x.s2) (_ha : a < 3) : sel3 i0 i1 i2 a < x.shapeAt a := by
  unfold sel3 NDArr.shapeAt
  split_ifs <;> omega

/-- Helper: for a valid orientation, `invOut` reverses the output-axis map. -/
theorem invOut_out (o : Ornt) (ho : OrntValid o) (a : Nat) (ha : a < 3) :
    invOut o ((o a).1) = a := by
  obtain ⟨l0, l1, l2, d01, d02, d12⟩ := ho
  interval_cases a
  · simp [invOut]
  · unfold invOut
    rw [if_neg d01, if_pos rfl]
  · unfold invOut
    rw [if_neg d02, if_neg d12]

/-- Helper: for a valid orientation, the output-axis map reverses `invOut`. -/
theorem out_invOut (o : Ornt) (ho : OrntValid o) (k : Nat) (hk : k < 3) :
    (o (invOut o k)).1 = k := by
  obtain ⟨l0, l1, l2, d01, d02, d12⟩ := ho
  unfold invOut
  split_ifs with h0 h1
  · exact h0
  · exact h1
  · omega

/-- Helper: the orientation transform of two valid orientations is valid. -/
theorem orntTransform_valid (s e : Ornt) (hs : OrntValid s) (he : OrntValid e) :
    OrntValid (orntTransform s e) := by
  have key : ∀ k k', k < 3 → k' < 3 → invOut e k = invOut e k' → k = k' := by
    intro k k' hk hk' h
    have u := out_invOut e he k hk
    rw [h, out_invOut e he k' hk'] at u
    exact u.symm
  obtain ⟨l0, l1, l2, d01, d02, d12⟩ := hs
  refine ⟨invOut_lt e _, invOut_lt e _, invOut_lt e _, ?_, ?_, ?_⟩
  · intro h
    exact d01 (key _ _ l0 l1 h)
  · intro h
    exact d02 (key _ _ l0 l2 h)
  · intro h
    exact d12 (key _ _ l1 l2 h)

/-- Helper: the transforms between two valid orientations, taken in the two
directions, are mutually inverse row by row, with matching flip bits. -/
theorem orntTransform_inv (oA oB : Ornt) (hA : OrntValid oA) (hB : OrntValid oB)
    (b : Nat) (hb : b < 3) :
    (orntTransform oB oA ((orntTransform oA oB b).1)).1 = b ∧
      (orntTransform oB oA ((orntTransform oA oB b).1)).2 = (orntTransform oA oB b).2 := by
  have hk : (oA b).1 < 3 := ornt_fst_lt oA hA b hb
  have hBa : (oB (invOut oB ((oA b).1))).1 = (oA b).1 := out_invOut oB hB _ hk
  constructor
  · show invOut oA ((oB (invOut oB ((oA b).1))).1) = b
    rw [hBa]
    exact invOut_out oA hA b hb
  · show ((oB (invOut oB ((oA b).1))).2 == (oA (invOut oA ((oB (invOut oB ((oA b).1))).1))).2) =
      ((oA b).2 == (oB (invOut oB ((oA b).1))).2)
    rw [hBa, invOut_out oA hA b hb]
    cases (oB (invOut oB ((oA b).1))).2 <;> cases (oA b).2 <;> rfl

/-- Helper: the shape of a reoriented array along axis `k` is the input shape
along the axis that provides output axis `k`. -/
theorem shapeAt_applyOrnt (o : Ornt) (x : NDArr) (k : Nat) (hk : k < 3) :
    (applyOrnt o x).shapeAt k = x.shapeAt (invOut o k) := by
  interval_cases k <;> rfl

/-- Helper: the argsorts of the two directions of a transform pair are
mutually inverse. -/
theorem invOut_invOut (oA oB : Ornt) (hA : OrntValid oA) (hB : OrntValid oB)
    (k : Nat) (hk : k < 3) :
    invOut (orntTransform oA oB) (invOut (orntTransform oB oA) k) = k := by
  have hval1 : OrntValid (orntTransform oA oB) := orntTransform_valid oA oB hA hB
  have hval2 : OrntValid (orntTransform oB oA) := orntTransform_valid oB oA hB hA
  have h1 : (orntTransform oB oA (invOut (orntTransform oB oA) k)).1 = k :=
    out_invOut (orntTransform oB oA) hval2 k hk
  have h2 := (orntTransform_inv oB oA hB hA (invOut (orntTransform oB oA) k)
    (invOut_lt (orntTransform oB oA) k)).1
  rw [h1] at h2
  have h3 : (orntTransform oA oB k).1 = invOut (orntTransform oB oA) k := h2
  rw [← h3]
  exact invOut_out (orntTransform oA oB) hval1 k hk

/-- Helper: unfolding equation of `coordMap`. -/
theorem coordMap_def (o : Ornt) (x : NDArr) (i0 i1 i2 a : Nat) :
    coordMap o x i0 i1 i2 a =
      cond (o a).2 (sel3 i0 i1 i2 ((o a).1)) (x.shapeAt a - 1 - sel3 i0 i1 i2 ((o a).1)) :=
  rfl

/-- Helper: unfolding equation of the voxel read of a reoriented array. -/
theorem applyOrnt_data (o : Ornt) (x : NDArr) (i0 i1 i2 : Nat) :
    (applyOrnt o x).data i0 i1 i2 =
      x.data (coordMap o x i0 i1 i2 0) (coordMap o x i0 i1 i2 1) (coordMap o x i0 i1 i2 2) :=
  rfl

/-- Helper: `coordMap` reads its array argument only through the shape. -/
theorem coordMap_congr (o : Ornt) (x y : NDArr) (h0 : x.s0 = y.s0) (h1 : x.s1 = y.s1)
    (h2 : x.s2 = y.s2) (i0 i1 i2 a : Nat) :
    coordMap o x i0 i1 i2 a = coordMap o y i0 i1 i2 a := by
  unfold coordMap NDArr.shapeAt
  rw [h0, h1, h2]

/-- Helper: the source coordinate read for an in-bounds output coordinate is in
bounds for the input array. -/
theorem coordMap_lt (o : Ornt) (ho : OrntValid o) (x : NDArr) (i0 i1 i2 : Nat)
    (h0 : i0 < (applyOrnt o x).s0) (h1 : i1 < (applyOrnt o x).s1)
    (h2 : i2 < (applyOrnt o x).s2) (a : Nat) (ha : a < 3) :
    coordMap o x i0 i1 i2 a < x.shapeAt a := by
  have hko : (o a).1 < 3 := ornt_fst_lt o ho a ha
  have hsel : sel3 i0 i1 i2 ((o a).1) < (applyOrnt o x).shapeAt ((o a).1) :=
    sel3_lt (applyOrnt o x) i0 i1 i2 _ h0 h1 h2 hko
  rw [shapeAt_applyOrnt o x _ hko, invOut_out o ho a ha] at hsel
  rw [coordMap_def]
  cases hflip : (o a).2
  · simp only [cond_false]
    omega
  · simp only [cond_true]
    omega

/-- Helper: applying the transform from `oA` to `oB` and then the transform
from `oB` back to `oA` is the identity on every in-bounds coordinate. -/
theorem coordMap_cancel (oA oB : Ornt) (hA : OrntValid oA) (hB : OrntValid oB) (x : NDArr)
    (i0 i1 i2 : Nat) (h0 : i0 < x.s0) (h1 : i1 < x.s1) (h2 : i2 < x.s2)
    (b : Nat) (hb : b < 3) :
    coordMap (orntTransform oA oB) x
      (coordMap (orntTransform oB oA) (applyOrnt (orntTransform oA oB) x) i0 i1 i2 0)
      (coordMap (orntTransform oB oA) (applyOrnt (orntTransform oA oB) x) i0 i1 i2 1)
      (coordMap (orntTransform oB oA) (applyOrnt (orntTransform oA oB) x) i0 i1 i2 2) b =
      sel3 i0 i1 i2 b := by
  have hval1 : OrntValid (orntTransform oA oB) := orntTransform_valid oA oB hA hB
  have ha3 : (orntTransform oA oB b).1 < 3 := invOut_lt oB ((oA b).1)
  have hinv := orntTransform_inv oA oB hA hB b hb
  have hiv : invOut (orntTransform oA oB) ((orntTransform oA oB b).1) = b :=
    invOut_out (orntTransform oA oB) hval1 b hb
  have hsh : (applyOrnt (orntTransform oA oB) x).shapeAt ((orntTransform oA oB b).1) =
      x.shapeAt b := by
    rw [shapeAt_applyOrnt _ _ _ ha3, hiv]
  have hsel : sel3 i0 i1 i2 b < x.shapeAt b := sel3_lt x i0 i1 i2 b h0 h1 h2 hb
  have hsel3M : sel3
      (coordMap (orntTransform oB oA) (applyOrnt (orntTransform oA oB) x) i0 i1 i2 0)
      (coordMap (orntTransform oB oA) (applyOrnt (orntTransform oA oB) x) i0 i1 i2 1)
      (coordMap (orntTransform oB oA) (applyOrnt (orntTransform oA oB) x) i0 i1 i2 2)
      ((orntTransform oA oB b).1) =
      coordMap (orntTransform oB oA) (applyOrnt (orntTransform oA oB) x) i0 i1 i2
        ((orntTransform oA oB b).1) :=
    sel3_eval (coordMap (orntTransform oB oA) (applyOrnt (orntTransform oA oB) x) i0 i1 i2)
      ((orntTransform oA oB b).1) ha3
  have hin : coordMap (orntTransform oB oA) (applyOrnt (orntTransform oA oB) x) i0 i1 i2
      ((orntTransform oA oB b).1) =
      cond (orntTransform oA oB b).2 (sel3 i0 i1 i2 b)
        (x.shapeAt b - 1 - sel3 i0 i1 i2 b) := by
    rw [coordMap_def, hinv.1, hinv.2, hsh]
  rw [coordMap_def (orntTransform oA oB) x, hsel3M, hin]
  cases hflip : (orntTransform oA oB b).2
  · simp only [cond_false]
    omega
  · simp only [cond_true]

/-- Helper: applying a transform pair in both directions returns an array equal
to the original. -/
theorem applyOrnt_cancel (oA oB : Ornt) (hA : OrntValid oA) (hB : OrntValid oB) (x : NDArr) :
    ArrEq (applyOrnt (orntTransform oB oA) (applyOrnt (orntTransform oA oB) x)) x := by
  have hshape : ∀ k, k < 3 →
      (applyOrnt (orntTransform oB oA) (applyOrnt (orntTransform oA oB) x)).shapeAt k =
        x.shapeAt k := by
    intro k hk
    rw [shapeAt_applyOrnt _ _ k hk,
      shapeAt_applyOrnt _ _ _ (invOut_lt (orntTransform oB oA) k),
      invOut_invOut oA oB hA hB k hk]
  have hs0 : (applyOrnt (orntTransform oB oA) (applyOrnt (orntTransform oA oB) x)).s0 = x.s0 :=
    hshape 0 (by omega)
  have hs1 : (applyOrnt (orntTransform oB oA) (applyOrnt (orntTransform oA oB) x)).s1 = x.s1 :=
    hshape 1 (by omega)
  have hs2 : (applyOrnt (orntTransform oB oA) (applyOrnt (orntTransform oA oB) x)).s2 = x.s2 :=
    hshape 2 (by omega)
  refine ⟨rfl, hs0, hs1, hs2, ?_⟩
  intro i0 i1 i2 h0 h1 h2
  rw [hs0] at h0
  rw [hs1] at h1
  rw [hs2] at h2
  have e0 : coordMap (orntTransform oA oB) x
      (coordMap (orntTransform oB oA) (applyOrnt (orntTransform oA oB) x) i0 i1 i2 0)
      (coordMap (orntTransform oB oA) (applyOrnt (orntTransform oA oB) x) i0 i1 i2 1)
      (coordMap (orntTransform oB oA) (applyOrnt (orntTransform oA oB) x) i0 i1 i2 2) 0 = i0 :=
    coordMap_cancel oA oB hA hB x i0 i1 i2 h0 h1 h2 0 (by omega)
  have e1 : coordMap (orntTransform oA oB) x
      (coordMap (orntTransform oB oA) (applyOrnt (orntTransform oA oB) x) i0 i1 i2 0)
      (coordMap (orntTransform oB oA) (applyOrnt (orntTransform oA oB) x) i0 i1 i2 1)
      (coordMap (orntTransform oB oA) (applyOrnt (orntTransform oA oB) x) i0 i1 i2 2) 1 = i1 :=
    coordMap_cancel oA oB hA hB x i0 i1 i2 h0 h1 h2 1 (by omega)
  have e2 : coordMap (orntTransform oA oB) x
      (coordMap (orntTransform oB oA) (applyOrnt (orntTransform oA oB) x) i0 i1 i2 0)
      (coordMap (orntTransform oB oA) (applyOrnt (orntTransform oA oB) x) i0 i1 i2 1)
      (coordMap (orntTransform oB oA) (applyOrnt (orntTransform oA oB) x) i0 i1 i2 2) 2 = i2 :=
    coordMap_cancel oA oB hA hB x i0 i1 i2 h0 h1 h2 2 (by omega)
  rw [applyOrnt_data (orntTransform oB oA), applyOrnt_data (orntTransform oA oB), e0, e1, e2]

/-- Helper: the anatomical label axis of every code is below 3. -/
theorem axcodeRow_fst_lt (a : AxCode) : (axcodeRow a).1 < 3 := by
  cases a <;> decide

/-- Helper: a valid code triple yields a valid orientation. -/
theorem axcodes2ornt_valid (c : AxCodes) (hc : CodesValid c) : OrntValid (axcodes2ornt c) :=
  ⟨axcodeRow_fst_lt c.1, axcodeRow_fst_lt c.2.1, axcodeRow_fst_lt c.2.2,
    hc.1, hc.2.1, hc.2.2⟩

/-- C4: aligning a 3D array from orientation codes `cA` to `cB` and back
returns exactly the original array — axis permutations and flips lose no
data. -/
theorem align_roundtrip (x : NDArr) (cA cB : AxCodes) (hA : CodesValid cA)
    (hB : CodesValid cB) : ArrEq (align (align x cA cB) cB cA) x :=
  applyOrnt_cancel (axcodes2ornt cA) (axcodes2ornt cB)
    (axcodes2ornt_valid cA hA) (axcodes2ornt_valid cB hB) x

/-- Witness for the orientation round-trip at a concrete 2×3×4 volume between
the (R, A, S) and (L, P, S) orientations. -/
theorem align_roundtrip_witness :
    CodesValid (AxCode.R, AxCode.A, AxCode.S) ∧ CodesValid (AxCode.L, AxCode.P, AxCode.S) ∧
      ArrEq (align (align demoVol234 (AxCode.R, AxCode.A, AxCode.S)
        (AxCode.L, AxCode.P, AxCode.S)) (AxCode.L, AxCode.P, AxCode.S)
        (AxCode.R, AxCode.A, AxCode.S)) demoVol234 :=
  ⟨by decide, by decide,
    align_roundtrip demoVol234 (AxCode.R, AxCode.A, AxCode.S) (AxCode.L, AxCode.P, AxCode.S)
      (by decide) (by decide)⟩

/-- Helper: membership in the coordinate box of an array. -/
theorem mem_box (x : NDArr) (p : Nat × Nat × Nat) :
    p ∈ box x ↔ p.1 < x.s0 ∧ p.2.1 < x.s1 ∧ p.2.2 < x.s2 := by
  simp [box, Finset.mem_product, Finset.mem_range]

/-- Helper: the index map of a valid orientation sends in-bounds coordinates of
the reoriented array to in-bounds coordinates of the input array. -/
theorem idxMap_mem (o : Ornt) (ho : OrntValid o) (x : NDArr) (p : Nat × Nat × Nat)
    (hp : p ∈ box (applyOrnt o x)) : idxMap o x p ∈ box x := by
  obtain ⟨h0, h1, h2⟩ := (mem_box (applyOrnt o x) p).mp hp
  refine (mem_box x (idxMap o x p)).mpr ⟨?_, ?_, ?_⟩
  · exact coordMap_lt o ho x p.1 p.2.1 p.2.2 h0 h1 h2 0 (by omega)
  · exact coordMap_lt o ho x p.1 p.2.1 p.2.2 h0 h1 h2 1 (by omega)
  · exact coordMap_lt o ho x p.1 p.2.1 p.2.2 h0 h1 h2 2 (by omega)

/-- Helper: reorientation by a transform pair leaves the multiset of voxel
values unchanged. -/
theorem vals_applyOrnt_pair (oA oB : Ornt) (hA : OrntValid oA) (hB : OrntValid oB)
    (x : NDArr) : vals (applyOrnt (orntTransform oA oB) x) = vals x := by
  have hval1 : OrntValid (orntTransform oA oB) := orntTransform_valid oA oB hA hB
  have hval2 : OrntValid (orntTransform oB oA) := orntTransform_valid oB oA hB hA
  have hz : ∀ k, k < 3 →
      (applyOrnt (orntTransform oB oA) (applyOrnt (orntTransform oA oB) x)).shapeAt k =
        x.shapeAt k := by
    intro k hk
    rw [shapeAt_applyOrnt _ _ k hk,
      shapeAt_applyOrnt _ _ _ (invOut_lt (orntTransform oB oA) k),
      invOut_invOut oA oB hA hB k hk]
  have hz0 : (applyOrnt (orntTransform oB oA) (applyOrnt (orntTransform oA oB) x)).s0 = x.s0 :=
    hz 0 (by omega)
  have hz1 : (applyOrnt (orntTransform oB oA) (applyOrnt (orntTransform oA oB) x)).s1 = x.s1 :=
    hz 1 (by omega)
  have hz2 : (applyOrnt (orntTransform oB oA) (applyOrnt (orntTransform oA oB) x)).s2 = x.s2 :=
    hz 2 (by omega)
  have hLI : ∀ p : Nat × Nat × Nat, p ∈ box (applyOrnt (orntTransform oA oB) x) →
      idxMap (orntTransform oB oA) (applyOrnt (orntTransform oA oB) x)
        (idxMap (orntTransform oA oB) x p) = p := by
    intro p hp
    obtain ⟨p1, p2, p3⟩ := p
    obtain ⟨hp0, hp1, hp2⟩ := (mem_box _ _).mp hp
    have hcg : ∀ a : Nat,
        coordMap (orntTransform oA oB)
          (applyOrnt (orntTransform oB oA) (applyOrnt (orntTransform oA oB) x))
          p1 p2 p3 a =
          coordMap (orntTransform oA oB) x p1 p2 p3 a :=
      fun a => coordMap_congr _ _ _ hz0 hz1 hz2 p1 p2 p3 a
    have key : ∀ b, b < 3 →
        coordMap (orntTransform oB oA) (applyOrnt (orntTransform oA oB) x)
          (coordMap (orntTransform oA oB) x p1 p2 p3 0)
          (coordMap (orntTransform oA oB) x p1 p2 p3 1)
          (coordMap (orntTransform oA oB) x p1 p2 p3 2) b =
          sel3 p1 p2 p3 b := by
      intro b hb
      have hcc := coordMap_cancel oB oA hB hA (applyOrnt (orntTransform oA oB) x)
        p1 p2 p3 hp0 hp1 hp2 b hb
      rw [hcg 0, hcg 1, hcg 2] at hcc
      exact hcc
    have k0 : coordMap (orntTransform oB oA) (applyOrnt (orntTransform oA oB) x)
        (coordMap (orntTransform oA oB) x p1 p2 p3 0)
        (coordMap (orntTransform oA oB) x p1 p2 p3 1)
        (coordMap (orntTransform oA oB) x p1 p2 p3 2) 0 = p1 := key 0 (by omega)
    have k1 : coordMap (orntTransform oB oA) (applyOrnt (orntTransform oA oB) x)
        (coordMap (orntTransform oA oB) x p1 p2 p3 0)
        (coordMap (orntTransform oA oB) x p1 p2 p3 1)
        (coordMap (orntTransform oA oB) x p1 p2 p3 2) 1 = p2 := key 1 (by omega)
    have k2 : coordMap (orntTransform oB oA) (applyOrnt (orntTransform oA oB) x)
        (coordMap (orntTransform oA oB) x p1 p2 p3 0)
        (coordMap (orntTransform oA oB) x p1 p2 p3 1)
        (coordMap (orntTransform oA oB) x p1 p2 p3 2) 2 = p3 := key 2 (by omega)
    exact Prod.ext k0 (Prod.ext k1 k2)
  have hRI : ∀ q : Nat × Nat × Nat, q ∈ box x →
      idxMap (orntTransform oA oB) x
        (idxMap (orntTransform oB oA) (applyOrnt (orntTransform oA oB) x) q) = q := by
    intro q hq
    obtain ⟨q1, q2, q3⟩ := q
    obtain ⟨hq0, hq1, hq2⟩ := (mem_box _ _).mp hq
    have k0 : coordMap (orntTransform oA oB) x
        (coordMap (orntTransform oB oA) (applyOrnt (orntTransform oA oB) x) q1 q2 q3 0)
        (coordMap (orntTransform oB oA) (applyOrnt (orntTransform oA oB) x) q1 q2 q3 1)
        (coordMap (orntTransform oB oA) (applyOrnt (orntTransform oA oB) x) q1 q2 q3 2) 0 =
        q1 := coordMap_cancel oA oB hA hB x q1 q2 q3 hq0 hq1 hq2 0 (by omega)
    have k1 : coordMap (orntTransform oA oB) x
        (coordMap (orntTransform oB oA) (applyOrnt (orntTransform oA oB) x) q1 q2 q3 0)
        (coordMap (orntTransform oB oA) (applyOrnt (orntTransform oA oB) x) q1 q2 q3 1)
        (coordMap (orntTransform oB oA) (applyOrnt (orntTransform oA oB) x) q1 q2 q3 2) 1 =
        q2 := coordMap_cancel oA oB hA hB x q1 q2 q3 hq0 hq1 hq2 1 (by omega)
    have k2 : coordMap (orntTransform oA oB) x
        (coordMap (orntTransform oB oA) (applyOrnt (orntTransform oA oB) x) q1 q2 q3 0)
        (coordMap (orntTransform oB oA) (applyOrnt (orntTransform oA oB) x) q1 q2 q3 1)
        (coordMap (orntTransform oB oA) (applyOrnt (orntTransform oA oB) x) q1 q2 q3 2) 2 =
        q3 := coordMap_cancel oA oB hA hB x q1 q2 q3 hq0 hq1 hq2 2 (by omega)
    exact Prod.ext k0 (Prod.ext k1 k2)
  have hmemRI : ∀ q : Nat × Nat × Nat, q ∈ box x →
      idxMap (orntTransform oB oA) (applyOrnt (orntTransform oA oB) x) q ∈
        box (applyOrnt (orntTransform oA oB) x) := by
    intro q hq
    obtain ⟨hq0, hq1, hq2⟩ := (mem_box _ _).mp hq
    have hb0 : q.1 < (applyOrnt (orntTransform oB oA)
        (applyOrnt (orntTransform oA oB) x)).s0 := by rw [hz0]; exact hq0
    have hb1 : q.2.1 < (applyOrnt (orntTransform oB oA)
        (applyOrnt (orntTransform oA oB) x)).s1 := by rw [hz1]; exact hq1
    have hb2 : q.2.2 < (applyOrnt (orntTransform oB oA)
        (applyOrnt (orntTransform oA oB) x)).s2 := by rw [hz2]; exact hq2
    refine (mem_box _ _).mpr ⟨?_, ?_, ?_⟩
    · exact coordMap_lt (orntTransform oB oA) hval2 (applyOrnt (orntTransform oA oB) x)
        q.1 q.2.1 q.2.2 hb0 hb1 hb2 0 (by omega)
    · exact coordMap_lt (orntTransform oB oA) hval2 (applyOrnt (orntTransform oA oB) x)
        q.1 q.2.1 q.2.2 hb0 hb1 hb2 1 (by omega)
    · exact coordMap_lt (orntTransform oB oA) hval2 (applyOrnt (orntTransform oA oB) x)
        q.1 q.2.1 q.2.2 hb0 hb1 hb2 2 (by omega)
  have himg : Finset.image (idxMap (orntTransform oA oB) x)
      (box (applyOrnt (orntTransform oA oB) x)) = box x := by
    apply Finset.ext
    intro q
    constructor
    · intro hq
      obtain ⟨p, hp, hpq⟩ := Finset.mem_image.mp hq
      rw [← hpq]
      exact idxMap_mem (orntTransform oA oB) hval1 x p hp
    · intro hq
      exact Finset.mem_image.mpr
        ⟨idxMap (orntTransform oB oA) (applyOrnt (orntTransform oA oB) x) q,
          hmemRI q hq, hRI q hq⟩
  have hinjOn : Set.InjOn (idxMap (orntTransform oA oB) x)
      (box (applyOrnt (orntTransform oA oB) x)) := by
    intro p hp p' hp' heq
    have h1 := hLI p (Finset.mem_coe.mp hp)
    rw [heq] at h1
    rw [hLI p' (Finset.mem_coe.mp hp')] at h1
    exact h1.symm
  have hmap : Multiset.map (idxMap (orntTransform oA oB) x)
      (box (applyOrnt (orntTransform oA oB) x)).val = (box x).val := by
    rw [← Finset.image_val_of_injOn hinjOn, himg]
  have step1 : vals (applyOrnt (orntTransform oA oB) x) =
      Multiset.map ((fun q => x.data q.1 q.2.1 q.2.2) ∘ idxMap (orntTransform oA oB) x)
        (box (applyOrnt (orntTransform oA oB) x)).val := by
    unfold vals
    apply Multiset.map_congr rfl
    intro p _
    rfl
  rw [step1, ← Multiset.map_map, hmap]
  rfl

/-- Helper: the LPS orientation is valid. -/
theorem lpsOrnt_valid : OrntValid lpsOrnt := by decide

/-- Helper: the three argsort positions of a valid transform pair are a
permutation of 0, 1, 2. -/
theorem invOut_perm_012 (t : Ornt) (ht : OrntValid t) :
    ({invOut t 0, invOut t 1, invOut t 2} : Multiset Nat) = {0, 1, 2} := by
  have b0 := invOut_lt t 0
  have b1 := invOut_lt t 1
  have b2 := invOut_lt t 2
  have inj : ∀ j j', j < 3 → j' < 3 → invOut t j = invOut t j' → j = j' := by
    intro j j' hj hj' he
    have u := out_invOut t ht j hj
    rw [he, out_invOut t ht j' hj'] at u
    exact u.symm
  have d01 : invOut t 0 ≠ invOut t 1 := fun h => by
    have := inj 0 1 (by omega) (by omega) h
    omega
  have d02 : invOut t 0 ≠ invOut t 2 := fun h => by
    have := inj 0 2 (by omega) (by omega) h
    omega
  have d12 : invOut t 1 ≠ invOut t 2 := fun h => by
    have := inj 1 2 (by omega) (by omega) h
    omega
  have e0 : invOut t 0 = 0 ∨ invOut t 0 = 1 ∨ invOut t 0 = 2 := by omega
  have e1 : invOut t 1 = 0 ∨ invOut t 1 = 1 ∨ invOut t 1 = 2 := by omega
  have e2 : invOut t 2 = 0 ∨ invOut t 2 = 1 ∨ invOut t 2 = 2 := by omega
  rcases e0 with h|h|h <;> rcases e1 with g|g|g <;> rcases e2 with f|f|f <;>
    rw [h, g, f] <;> first
    | (exfalso; omega)
    | decide

/-- C10: on every 3D input with a valid derived orientation, the reoriented
array's shape is a permutation of the input shape and the multiset of voxel
values is exactly preserved — reorientation only permutes and reverses axes. -/
theorem reorient_preserves_shape_and_values (o : Ornt) (x : NDArr) (ho : OrntValid o)
    (h3 : x.ndim = 3) :
    ∃ y, reorientToLPS o x = .ok y ∧
      ({y.s0, y.s1, y.s2} : Multiset Nat) = {x.s0, x.s1, x.s2} ∧
      vals y = vals x := by
  refine ⟨alignToLPS o x, by simp [reorientToLPS, h3], ?_, ?_⟩
  · have htv : OrntValid (orntTransform o lpsOrnt) :=
      orntTransform_valid o lpsOrnt ho lpsOrnt_valid
    have hy0 : (alignToLPS o x).s0 = x.shapeAt (invOut (orntTransform o lpsOrnt) 0) := rfl
    have hy1 : (alignToLPS o x).s1 = x.shapeAt (invOut (orntTransform o lpsOrnt) 1) := rfl
    have hy2 : (alignToLPS o x).s2 = x.shapeAt (invOut (orntTransform o lpsOrnt) 2) := rfl
    rw [hy0, hy1, hy2]
    have hmapped : ({x.shapeAt (invOut (orntTransform o lpsOrnt) 0),
        x.shapeAt (invOut (orntTransform o lpsOrnt) 1),
        x.shapeAt (invOut (orntTransform o lpsOrnt) 2)} : Multiset Nat) =
        Multiset.map x.shapeAt {invOut (orntTransform o lpsOrnt) 0,
          invOut (orntTransform o lpsOrnt) 1, invOut (orntTransform o lpsOrnt) 2} := rfl
    rw [hmapped, invOut_perm_012 (orntTransform o lpsOrnt) htv]
    rfl
  · exact vals_applyOrnt_pair o lpsOrnt ho lpsOrnt_valid x

/-- Witness for shape and value preservation at a concrete 2×3×4 volume with
the RAS-derived orientation. -/
theorem reorient_preserves_shape_and_values_witness :
    OrntValid rasOrnt ∧ demoVol234.ndim = 3 ∧
      ∃ y, reorientToLPS rasOrnt demoVol234 = .ok y ∧
        ({y.s0, y.s1, y.s2} : Multiset Nat) =
          {demoVol234.s0, demoVol234.s1, demoVol234.s2} ∧
        vals y = vals demoVol234 :=
  ⟨by decide, rfl, reorient_preserves_shape_and_values rasOrnt demoVol234 (by decide) rfl⟩
